import Mathlib

/-!
# CRL issuance handler (`api/crl/crl.go`)

A shallow embedding of `Handler.Handle` together with the Go standard-library
routines whose results decide its behaviour (`strings.TrimSpace`,
`strconv.ParseInt`, `big.Int.SetString`, `time.Duration` arithmetic).

Conventions of the embedding.

* A Go `string` that came out of `json.Unmarshal` is valid UTF-8, so it is a
  sequence of Unicode scalar values: a Lean `String`, processed through its
  `data : List Char`.  The byte loops of `strconv` and `math/big` classify a
  byte only when it is ASCII; a non-ASCII scalar value and the first byte of
  its encoding fall into the same (rejecting) branch, so the loops are written
  over code points.
* `uint64`/`int64` arithmetic is `Nat`/`Int` arithmetic with explicit
  reduction modulo `2^64`.
* `time.Time` is a count of nanoseconds (`Int`), `time.Duration` is an `int64`
  count of nanoseconds.
* `time.Now()` is a stateful call: the `k`-th call made while handling the
  request returns `now k`.
* The collaborators (`ioutil.ReadAll`, `json.Unmarshal`, the certificate
  store, the signer, `api.SendResponse`) are parameters of the handler, and
  every call made to them is recorded in a trace.
-/

namespace CRL

/-! ## Errors -/

/-- The `Err` field of a `strconv.NumError`. -/
inductive NumErrKind where
  | ErrSyntaxKind
  | ErrRangeKind
  | Other (msg : String)
  deriving DecidableEq, Repr

/-- Go `error` values: a `*strconv.NumError` or an error produced by a
collaborator, of which only the identity matters. -/
inductive Error where
  | NumError (Func : String) (Num : String) (Err : NumErrKind)
  | External (msg : String)
  deriving DecidableEq, Repr

def fnParseUint : String := "ParseUint"

def fnParseInt : String := "ParseInt"

/-- The strconv helper `syntaxError(fn, str)`. -/
def syntaxError (fn : String) (str : List Char) : Error :=
  Error.NumError fn (String.mk str) NumErrKind.ErrSyntaxKind

/-- The strconv helper `rangeError(fn, str)`. -/
def rangeError (fn : String) (str : List Char) : Error :=
  Error.NumError fn (String.mk str) NumErrKind.ErrRangeKind

/-- The strconv helper `baseError(fn, str, base)`. -/
def baseError (fn : String) (str : List Char) (base : Nat) : Error :=
  Error.NumError fn (String.mk str) (NumErrKind.Other ("invalid base " ++ toString base))

/-- The strconv helper `bitSizeError(fn, str, bitSize)`. -/
def bitSizeError (fn : String) (str : List Char) (bitSize : Nat) : Error :=
  Error.NumError fn (String.mk str) (NumErrKind.Other ("invalid bit size " ++ toString bitSize))

/-! ## `unicode.IsSpace` and `strings.TrimSpace` -/

/-- Go `unicode.IsSpace`: the Latin-1 spaces `\t \n \v \f \r`, space, U+0085,
U+00A0, and the `White_Space` code points above Latin-1. -/
def IsSpace (r : Char) : Bool :=
  let c := r.toNat
  if c ≤ 0xFF then
    c == 0x09 || c == 0x0A || c == 0x0B || c == 0x0C || c == 0x0D || c == 0x20
      || c == 0x85 || c == 0xA0
  else
    c == 0x1680 || (0x2000 ≤ c && c ≤ 0x200A) || c == 0x2028 || c == 0x2029
      || c == 0x202F || c == 0x205F || c == 0x3000

/-- Go `strings.TrimSpace`: the string without its leading and trailing white
space. -/
def TrimSpace (s : List Char) : List Char :=
  ((s.dropWhile IsSpace).reverse.dropWhile IsSpace).reverse

/-! ## `strconv.ParseUint` and `strconv.ParseInt` -/

/-- The strconv helper `lower(c byte) = c | ('x' - 'X')`. -/
def lower (c : Nat) : Nat := c ||| 0x20

def maxUint64 : Nat := 2 ^ 64 - 1

/-- The strconv constant `IntSize` on a 64-bit platform. -/
def IntSize : Nat := 64

/-- The number proper of `underscoreOK`: `saw` is the class of the last
character seen (`^` start, `0` digit or base prefix, `_` underscore, `!`
anything else). -/
def underscoreOK.loop (hex : Bool) : List Char → Char → Bool
  | [], saw => saw != '_'
  | ch :: rest, saw =>
    let c := ch.toNat
    if (('0'.toNat ≤ c && c ≤ '9'.toNat)
        || (hex && 'a'.toNat ≤ lower c && lower c ≤ 'f'.toNat)) then
      underscoreOK.loop hex rest '0'
    else if c == '_'.toNat then
      if saw != '0' then false else underscoreOK.loop hex rest '_'
    else if saw == '_' then false
    else underscoreOK.loop hex rest '!'

/-- The strconv helper `underscoreOK`: underscores may appear only between
digits or between a base prefix and a digit. -/
def underscoreOK (s : List Char) : Bool :=
  let s := match s with
    | c :: r => if c == '-' || c == '+' then r else s
    | [] => s
  match s with
  | c0 :: c1 :: r =>
    if c0 == '0' && (lower c1.toNat == 'b'.toNat || lower c1.toNat == 'o'.toNat
        || lower c1.toNat == 'x'.toNat) then
      underscoreOK.loop (lower c1.toNat == 'x'.toNat) r '0'
    else underscoreOK.loop false s '^'
  | _ => underscoreOK.loop false s '^'

/-- The digit loop of `ParseUint`, with the final underscore check.  `s0` is
the argument of `ParseUint`, `n` the `uint64` accumulator. -/
def ParseUint.loop (s0 : List Char) (base : Nat) (base0 : Bool) (cutoff maxVal : Nat) :
    List Char → Nat → Bool → Nat × Option Error
  | [], n, underscores =>
    if underscores && !underscoreOK s0 then (0, some (syntaxError fnParseUint s0))
    else (n, none)
  | ch :: rest, n, underscores =>
    let c := ch.toNat
    if c == '_'.toNat && base0 then
      ParseUint.loop s0 base base0 cutoff maxVal rest n true
    else
      let digit : Option Nat :=
        if '0'.toNat ≤ c && c ≤ '9'.toNat then some (c - '0'.toNat)
        else if 'a'.toNat ≤ lower c && lower c ≤ 'z'.toNat then some (lower c - 'a'.toNat + 10)
        else none
      match digit with
      | none => (0, some (syntaxError fnParseUint s0))
      | some d =>
        if d ≥ base then (0, some (syntaxError fnParseUint s0))
        else if n ≥ cutoff then (maxVal, some (rangeError fnParseUint s0))
        else
          let n' := (n * base) % 2 ^ 64
          let n1 := (n' + d) % 2 ^ 64
          if n1 < n' || n1 > maxVal then (maxVal, some (rangeError fnParseUint s0))
          else ParseUint.loop s0 base base0 cutoff maxVal rest n1 underscores

/-- The base selection of `ParseUint` for `base == 0`: the base and the rest
of the string after the prefix. -/
def ParseUint.prefixBase (s : List Char) : Nat × List Char :=
  match s with
  | c0 :: rest =>
    if c0 == '0' then
      match rest with
      | c1 :: _ :: _ =>
        if lower c1.toNat == 'b'.toNat then (2, s.drop 2)
        else if lower c1.toNat == 'o'.toNat then (8, s.drop 2)
        else if lower c1.toNat == 'x'.toNat then (16, s.drop 2)
        else (8, s.drop 1)
      | _ => (8, s.drop 1)
    else (10, s)
  | [] => (10, s)

/-- Go `strconv.ParseUint(s, base, bitSize)`: the value and the error, as
of Go 1.13 (for `base == 0` the prefixes `0b`, `0o`, `0x` and a bare leading
`0` for octal select the base, and underscores may separate digits). -/
def ParseUint (s : List Char) (base bitSize : Nat) : Nat × Option Error :=
  if s = [] then (0, some (syntaxError fnParseUint s))
  else
    let base0 := base == 0
    let s0 := s
    if !(base == 0 || (2 ≤ base && base ≤ 36)) then
      (0, some (baseError fnParseUint s0 base))
    else
      let (base, s) := if base == 0 then ParseUint.prefixBase s else (base, s)
      if bitSize > 64 then (0, some (bitSizeError fnParseUint s0 bitSize))
      else
        let bitSize := if bitSize == 0 then IntSize else bitSize
        let cutoff := maxUint64 / base + 1
        let maxVal := (2 ^ bitSize % 2 ^ 64 + 2 ^ 64 - 1) % 2 ^ 64
        ParseUint.loop s0 base base0 cutoff maxVal s 0 false

/-- Conversion `int64(u)` of a `uint64`. -/
def toInt64 (u : Nat) : Int :=
  if u % 2 ^ 64 < 2 ^ 63 then (u % 2 ^ 64 : Nat) else ((u % 2 ^ 64 : Nat) : Int) - 2 ^ 64

/-- Reduction of an integer into the `int64` range (two's complement). -/
def wrapInt64 (x : Int) : Int := (x + 2 ^ 63) % 2 ^ 64 - 2 ^ 63

/-- The first step of `ParseInt`, "pick off leading sign": the flag `neg` and
the string after the sign. -/
def ParseInt.sign (s : List Char) : Bool × List Char :=
  match s with
  | '+' :: r => (false, r)
  | '-' :: r => (true, r)
  | _ => (false, s)

/-- The last step of `ParseInt`, "convert unsigned and check range", entered
with the value `un` of `ParseUint` when its error is nil or a range error. -/
def ParseInt.checkRange (s0 : List Char) (neg : Bool) (un : Nat) (bitSize : Nat) :
    Int × Option Error :=
  let bitSize := if bitSize == 0 then IntSize else bitSize
  let cutoff := 2 ^ (bitSize - 1) % 2 ^ 64
  if !neg && un ≥ cutoff then (toInt64 (cutoff - 1), some (rangeError fnParseInt s0))
  else if neg && un > cutoff then
    (wrapInt64 (-(toInt64 cutoff)), some (rangeError fnParseInt s0))
  else (if neg then wrapInt64 (-(toInt64 un)) else toInt64 un, none)

/-- Go `strconv.ParseInt(s, base, bitSize)`: the value and the error. -/
def ParseInt (s : List Char) (base bitSize : Nat) : Int × Option Error :=
  if s = [] then (0, some (syntaxError fnParseInt s))
  else
    let s0 := s
    let neg := (ParseInt.sign s).1
    let r := ParseUint (ParseInt.sign s).2 base bitSize
    match r.2 with
    | some (Error.NumError _ _ k) =>
      if k ≠ NumErrKind.ErrRangeKind then (0, some (Error.NumError fnParseInt (String.mk s0) k))
      else ParseInt.checkRange s0 neg r.1 bitSize
    | some e => (0, some e)
    | none => ParseInt.checkRange s0 neg r.1 bitSize

/-! ## `big.Int.SetString` -/

/-- A `big.Int`: sign and magnitude. -/
structure BigInt where
  neg : Bool
  abs : Nat
  deriving DecidableEq, Repr

/-- The integer a `big.Int` stands for. -/
def BigInt.toInt (z : BigInt) : Int := if z.neg then -(z.abs : Int) else (z.abs : Int)

/-- The value of `new(big.Int)`. -/
def BigInt.new : BigInt := { neg := false, abs := 0 }

/-- The math/big constant `MaxBase`. -/
def MaxBase : Nat := 62

/-- The math/big constant `maxBaseSmall`. -/
def maxBaseSmall : Nat := 36

/-- The math/big helper `scanSign`: `none` when the reader is at end of
input, otherwise the sign and the unread rest. -/
def scanSign (s : List Char) : Option (Bool × List Char) :=
  match s with
  | [] => none
  | '+' :: r => some (false, r)
  | '-' :: r => some (true, r)
  | _ => some (false, s)

/-- The digit loop of `nat.scan` for a fixed non-zero base `b` without
fraction: the magnitude read so far, the number of digits read, and the
unread rest (the first character that is not a digit of base `b` is put
back).  The grouping of digits into machine words before `mulAddWW` is
exact multi-word arithmetic and is written as arithmetic on `Nat`. -/
def natScan.loop (b : Nat) : List Char → Nat → Nat → Nat × Nat × List Char
  | [], z, count => (z, count, [])
  | ch :: rest, z, count =>
    let c := ch.toNat
    let d1 : Nat :=
      if '0'.toNat ≤ c && c ≤ '9'.toNat then c - '0'.toNat
      else if 'a'.toNat ≤ c && c ≤ 'z'.toNat then c - 'a'.toNat + 10
      else if 'A'.toNat ≤ c && c ≤ 'Z'.toNat then
        (if b ≤ maxBaseSmall then c - 'A'.toNat + 10 else c - 'A'.toNat + maxBaseSmall)
      else MaxBase + 1
    if d1 ≥ b then (z, count, ch :: rest)
    else natScan.loop b rest (z * b + d1) (count + 1)

/-- The method `(*Int).scan` for a non-zero base: the receiver afterwards and,
on success, the unread rest.  A missing sign byte leaves the receiver
untouched; a number without digits sets the magnitude to zero and leaves the
sign untouched. -/
def BigInt.scan (z : BigInt) (s : List Char) (base : Nat) : BigInt × Option (List Char) :=
  match scanSign s with
  | none => (z, none)
  | some (neg, r) =>
    let (abs, count, rest) := natScan.loop base r 0 0
    if count == 0 then ({ z with abs := abs }, none)
    else ({ neg := decide (abs > 0) && neg, abs := abs }, some rest)

/-- Go `(*big.Int).SetString(s, base)` for a non-zero base: the receiver
afterwards and the success flag (the Go result is `nil, false` on failure,
while the receiver keeps whatever `scan` stored in it). -/
def BigInt.SetString (z : BigInt) (s : List Char) (base : Nat) : BigInt × Bool :=
  match BigInt.scan z s base with
  | (z1, none) => (z1, false)
  | (z1, some rest) => (z1, rest.isEmpty)

/-! ## `time` -/

/-- Go `time.Duration`: an `int64` count of nanoseconds. -/
abbrev Duration := Int

def Nanosecond : Duration := 1

def Microsecond : Duration := 1000 * Nanosecond

def Millisecond : Duration := 1000 * Microsecond

def Second : Duration := 1000 * Millisecond

/-- Multiplication of two `time.Duration` values: `int64` multiplication. -/
def Duration.mul (a b : Duration) : Duration := wrapInt64 (a * b)

/-- Go `time.Time`, as nanoseconds on the time line. -/
structure Time where
  ns : Int
  deriving DecidableEq, Repr

/-- Go `Time.Add`. -/
def Time.Add (t : Time) (d : Duration) : Time := { ns := t.ns + d }

/-! ## The handler -/

abbrev Bytes := List UInt8

/-- The request type `jsonCRLRequest`. -/
structure jsonCRLRequest where
  ExpiryTime : String
  deriving DecidableEq, Repr

/-- The part of `certdb.CertificateRecord` the handler reads. -/
structure CertificateRecord where
  Serial : String
  deriving DecidableEq, Repr

/-- The fields of `pkix.RevokedCertificate` the handler sets (`Extensions`
stays nil). -/
structure RevokedCertificate where
  SerialNumber : BigInt
  RevocationTime : Time
  deriving DecidableEq, Repr

/-- The store collaborator `certdb.Accessor`, as far as the handler uses it. -/
structure Accessor where
  GetExpiredCertificates : Except Error (List CertificateRecord)

/-- The signing collaborator `signer.Signer`, as far as the handler uses it:
`CreateCRL(certs, thisUpdate, nextUpdate)` returns bytes and an error. -/
structure Signer where
  CreateCRL : List RevokedCertificate → Time → Time → Bytes × Option Error

/-- The type `Handler`. -/
structure Handler where
  dbAccessor : Accessor
  signer : Signer

/-- What the handler calls besides its two collaborators: the clock (`Now k`
is the result of the `k`-th call of `time.Now()`, counted from 0), the result
of `ioutil.ReadAll(r.Body)`, `json.Unmarshal` (given the body and the initial
request value, the request value afterwards and the error), and
`api.SendResponse(w, result)` (its returned error). -/
structure Runtime where
  Now : Nat → Time
  ReadAll : Except Error Bytes
  Unmarshal : Bytes → jsonCRLRequest → jsonCRLRequest × Option Error
  SendResponse : Bytes → Option Error

/-- The calls the handler makes, in order. -/
inductive Event where
  | ReadAll
  | BodyClose
  | LogError (e : Error)
  | GetExpiredCertificates
  | CreateCRL (certs : List RevokedCertificate) (thisUpdate nextUpdate : Time)
  | SendResponse (result : Bytes)
  deriving DecidableEq

/-- The statement `if err != nil { log.Error(err) }` of lines 41-43. -/
def Handle.logError (err : Option Error) : List Event :=
  match err with
  | some e => [Event.LogError e]
  | none => []

/-- The loop of lines 70-78: one entry is appended per record, each taking
one reading of the clock; `k` counts the readings taken so far. -/
def Handle.loop (now : Nat → Time) :
    List CertificateRecord → List RevokedCertificate → Nat → List RevokedCertificate × Nat
  | [], revokedCerts, k => (revokedCerts, k)
  | c :: rest, revokedCerts, k =>
    let tempBigInt := BigInt.new
    let tempBigInt := (BigInt.SetString tempBigInt c.Serial.data 10).1
    let tempCert : RevokedCertificate :=
      { SerialNumber := tempBigInt, RevocationTime := now k }
    Handle.loop now rest (revokedCerts ++ [tempCert]) (k + 1)

/-- The method `Handler.Handle`: the returned error and the trace of calls. -/
def Handle (h : Handler) (rt : Runtime) : Option Error × List Event :=
  let revokedCerts : List RevokedCertificate := []
  let oneWeek : Duration := Duration.mul 604800 Second
  let newExpiryTime : Time := rt.Now 0
  match rt.ReadAll with
  | .error err => (some err, [Event.ReadAll])
  | .ok body =>
    let (req, err) := rt.Unmarshal body { ExpiryTime := "" }
    let tr : List Event := [Event.ReadAll, Event.BodyClose] ++ Handle.logError err
    -- lines 45-53; the `err` declared there shadows the outer one
    let window : Except Error (Time × Nat) :=
      if req.ExpiryTime ≠ "" then
        let expiryTime := TrimSpace req.ExpiryTime.data
        let (expiryInt, err1) := ParseInt expiryTime 0 32
        match err1 with
        | some e => .error e
        | none => .ok ((rt.Now 1).Add (Duration.mul expiryInt Second), 2)
      else .ok (newExpiryTime, 1)
    match window with
    | .error e => (some e, tr)
    | .ok (newExpiryTime, k) =>
      -- lines 55-57
      let (newExpiryTime, k) : Time × Nat :=
        if req.ExpiryTime = "" then ((rt.Now k).Add oneWeek, k + 1) else (newExpiryTime, k)
      -- lines 59-61: the outer `err`, set by `json.Unmarshal`
      match err with
      | some e => (some e, tr)
      | none =>
        match h.dbAccessor.GetExpiredCertificates with
        | .error e => (some e, tr ++ [Event.GetExpiredCertificates, Event.LogError e])
        | .ok expiredCerts =>
          let (revokedCerts, k) := Handle.loop rt.Now expiredCerts revokedCerts k
          let thisUpdate := rt.Now k
          let (result, _) := h.signer.CreateCRL revokedCerts thisUpdate newExpiryTime
          (rt.SendResponse result,
            tr ++ [Event.GetExpiredCertificates,
                   Event.CreateCRL revokedCerts thisUpdate newExpiryTime,
                   Event.SendResponse result])

/-! ## Observations on a trace -/

/-- The arguments of the calls of `CreateCRL` recorded in a trace. -/
def createCRLCalls : List Event → List (List RevokedCertificate × Time × Time)
  | [] => []
  | Event.CreateCRL certs thisUpdate nextUpdate :: rest =>
    (certs, thisUpdate, nextUpdate) :: createCRLCalls rest
  | _ :: rest => createCRLCalls rest

/-- The results passed to `api.SendResponse` in a trace. -/
def sendResponseCalls : List Event → List Bytes
  | [] => []
  | Event.SendResponse result :: rest => result :: sendResponseCalls rest
  | _ :: rest => sendResponseCalls rest

/-- The number of calls of `GetExpiredCertificates` recorded in a trace. -/
def storeCalls : List Event → Nat
  | [] => 0
  | Event.GetExpiredCertificates :: rest => storeCalls rest + 1
  | _ :: rest => storeCalls rest

/-- The serial numbers of a list of entries, as integers. -/
def serialNumbers (certs : List RevokedCertificate) : List Int :=
  certs.map (fun c => c.SerialNumber.toInt)

/-! ## Decimal strings, as the specification speaks of them -/

/-- A decimal digit character. -/
def isDigit (c : Char) : Bool := '0'.toNat ≤ c.toNat && c.toNat ≤ '9'.toNat

/-- The value of a decimal digit character. -/
def digitVal (c : Char) : Nat := c.toNat - '0'.toNat

/-- The number written by a string of decimal digits, most significant digit
first. -/
def digitsValue (ds : List Char) : Nat := Nat.ofDigits 10 (ds.reverse.map digitVal)

/-- An optional leading sign and the rest of the string. -/
def splitSign (s : List Char) : Bool × List Char :=
  match s with
  | '+' :: r => (false, r)
  | '-' :: r => (true, r)
  | _ => (false, s)

/-- A valid base-10 integer string: an optional sign followed by one or more
decimal digits. -/
def DecimalInteger (s : List Char) : Bool :=
  !(splitSign s).2.isEmpty && (splitSign s).2.all isDigit

/-- The decimal value of a string: the number its digits write, negated after
a minus sign. -/
def decimalValue (s : List Char) : Int :=
  if (splitSign s).1 then -((digitsValue (splitSign s).2 : Nat) : Int)
  else ((digitsValue (splitSign s).2 : Nat) : Int)

/-- A decimal integer string written without a superfluous leading zero: its
digits are the single digit `0` or start with a non-zero digit. -/
def CanonicalDecimal (s : List Char) : Bool :=
  DecimalInteger s && ((splitSign s).2 == ['0'] || (splitSign s).2.head? != some '0')

/-- The value of the longest run of decimal digits that starts a string after
its optional sign (0 when there is no such digit). -/
def leadingDecimalValue (s : List Char) : Int :=
  if (splitSign s).1 then -((digitsValue ((splitSign s).2.takeWhile isDigit) : Nat) : Int)
  else ((digitsValue ((splitSign s).2.takeWhile isDigit) : Nat) : Int)

/-! ## Integer literals, as a grammar on characters -/

/-- A value that fits a signed 32-bit integer. -/
def fitsInt32 (d : Int) : Prop := -2 ^ 31 ≤ d ∧ d ≤ 2 ^ 31 - 1

instance (d : Int) : Decidable (fitsInt32 d) := by
  unfold fitsInt32; exact inferInstance

/-! ## Concrete requests -/

/-- A clock that does not advance while the request is handled. -/
def frozenClock (t : Int) : Nat → Time := fun _ => { ns := t }

/-- A clock that starts at `t` and advances by one microsecond between two
consecutive readings. -/
def tickingClock (t : Int) : Nat → Time := fun k => { ns := t + 1000 * (k : Int) }

/-- A signer that returns the bytes `[0x30, 0x00]` and no error. -/
def okSigner : Signer := { CreateCRL := fun _ _ _ => ([0x30, 0x00], none) }

/-- A signer that fails: it returns no bytes and an error. -/
def failingSigner : Signer :=
  { CreateCRL := fun _ _ _ => ([], some (Error.External "x509: signing failed")) }

/-- A handler over a store that returns the given records. -/
def handlerWith (recs : List CertificateRecord) (signer : Signer) : Handler :=
  { dbAccessor := { GetExpiredCertificates := .ok recs }, signer := signer }

/-- A handler whose store fails. -/
def handlerStoreDown (signer : Signer) : Handler :=
  { dbAccessor := { GetExpiredCertificates := .error (Error.External "sql: database is closed") },
    signer := signer }

/-- The bytes of the JSON object whose only member is `expireTime`, with the
given text as its string value. -/
def jsonBody (expireTime : String) : Bytes :=
  ("\x7b\"expireTime\":\"" ++ expireTime ++ "\"\x7d").toUTF8.data.toList

/-- A runtime in which the body `jsonBody expireTime` is read and decodes
without error into the given `expireTime`. -/
def runtimeWith (now : Nat → Time) (expireTime : String) : Runtime :=
  { Now := now
    ReadAll := .ok (jsonBody expireTime)
    Unmarshal := fun _ _ => ({ ExpiryTime := expireTime }, none)
    SendResponse := fun _ => none }

/-- A runtime in which the body `not json` fails JSON decoding: the request
value is left as it was and an error is returned. -/
def runtimeBadJSON (now : Nat → Time) : Runtime :=
  { Now := now
    ReadAll := .ok [0x6E, 0x6F, 0x74, 0x20, 0x6A, 0x73, 0x6F, 0x6E]
    Unmarshal := fun _ req => (req, some (Error.External "invalid character o in literal null"))
    SendResponse := fun _ => none }

/-! ## Arithmetic of `int64` and `time.Duration` -/

theorem wrapInt64_of_range (x : Int) (h1 : -2 ^ 63 ≤ x) (h2 : x < 2 ^ 63) : wrapInt64 x = x := by
  unfold wrapInt64
  omega

theorem Second_eq : Second = 1000000000 := by
  decide

theorem Duration_mul_Second (n : Int) (h : fitsInt32 n) :
    Duration.mul n Second = n * 1000000000 := by
  unfold fitsInt32 at h
  unfold Duration.mul
  rw [Second_eq]
  apply wrapInt64_of_range <;> omega

theorem oneWeek_eq : Duration.mul 604800 Second = 604800 * 1000000000 := by
  decide

theorem toInt64_of_small (u : Nat) (h : u < 2 ^ 63) : toInt64 u = (u : Int) := by
  unfold toInt64
  have h1 : u % 2 ^ 64 = u := Nat.mod_eq_of_lt (by omega)
  rw [h1, if_pos h]

/-! ## `strconv.ParseInt` -/

theorem ParseInt_checkRange_ok (s0 : List Char) (neg : Bool) (un : Nat) (n : Int)
    (h : ParseInt.checkRange s0 neg un 32 = (n, none)) :
    fitsInt32 n ∧ n = (if neg then -(un : Int) else (un : Int)) := by
  unfold ParseInt.checkRange at h
  simp only [show ((32 : Nat) == 0) = false from rfl, Bool.false_eq_true, if_false] at h
  have hc : 2 ^ (32 - 1) % 2 ^ 64 = 2147483648 := by norm_num
  rw [hc] at h
  unfold fitsInt32
  cases neg with
  | false =>
    simp only [Bool.not_false, Bool.true_and, Bool.false_and, Bool.false_eq_true, if_false,
      decide_eq_true_eq] at h
    split at h
    · simp at h
    · rename_i hlt
      simp only [Prod.mk.injEq, and_true] at h
      rw [toInt64_of_small un (by omega)] at h
      simp only [Bool.false_eq_true, if_false]
      omega
  | true =>
    simp only [Bool.not_true, Bool.false_and, Bool.true_and, Bool.false_eq_true, if_false,
      decide_eq_true_eq, if_true] at h
    split at h
    · simp at h
    · rename_i hlt
      simp only [Prod.mk.injEq, and_true] at h
      rw [toInt64_of_small un (by omega), wrapInt64_of_range _ (by omega) (by omega)] at h
      simp only [if_true]
      omega

theorem ParseInt_range (s : List Char) (base : Nat) (n : Int)
    (h : ParseInt s base 32 = (n, none)) : fitsInt32 n := by
  unfold ParseInt at h
  split at h
  · simp at h
  · simp only at h
    split at h
    · split at h
      · simp at h
      · exact (ParseInt_checkRange_ok _ _ _ _ h).1
    · simp at h
    · exact (ParseInt_checkRange_ok _ _ _ _ h).1

/-! ## Decimal digit strings -/

theorem digitsValue_nil : digitsValue [] = 0 := by
  simp [digitsValue]

theorem digitsValue_cons (c : Char) (ds : List Char) :
    digitsValue (c :: ds) = digitVal c * 10 ^ ds.length + digitsValue ds := by
  unfold digitsValue
  simp only [List.reverse_cons, List.map_append, List.map_cons, List.map_nil,
    Nat.ofDigits_append, Nat.ofDigits_singleton, List.length_map, List.length_reverse]
  ring

theorem isDigit_iff (c : Char) : isDigit c = true ↔ 48 ≤ c.toNat ∧ c.toNat ≤ 57 := by
  unfold isDigit
  simp only [Bool.and_eq_true, decide_eq_true_eq]
  exact Iff.rfl

theorem ParseUint_loop_digits (s0 : List Char) (ds : List Char) :
    ∀ n : Nat, (∀ c ∈ ds, isDigit c = true) →
      n * 10 ^ ds.length + digitsValue ds ≤ 4294967295 →
      ParseUint.loop s0 10 true (maxUint64 / 10 + 1) 4294967295 ds n false
        = (n * 10 ^ ds.length + digitsValue ds, none) := by
  induction ds with
  | nil =>
    intro n _ _
    simp [ParseUint.loop, digitsValue_nil]
  | cons c rest ih =>
    intro n hd hv
    have hc : isDigit c = true := hd c (List.mem_cons_self _ _)
    have hc2 := (isDigit_iff c).1 hc
    have hdv : digitVal c = c.toNat - 48 := rfl
    have hP : 0 < 10 ^ rest.length := Nat.pow_pos (by norm_num)
    rw [digitsValue_cons] at hv
    have e1 : n * 10 ^ (c :: rest).length = n * 10 * 10 ^ rest.length := by
      rw [List.length_cons, pow_succ]; ring
    rw [e1] at hv
    have hle : (n * 10 + digitVal c) ≤ (n * 10 + digitVal c) * 10 ^ rest.length :=
      Nat.le_mul_of_pos_right _ hP
    have hle2 : (n * 10 + digitVal c) * 10 ^ rest.length
        = n * 10 * 10 ^ rest.length + digitVal c * 10 ^ rest.length := by ring
    have hn1 : n * 10 + digitVal c ≤ 4294967295 := by omega
    have ih1 := ih (n * 10 + digitVal c) (fun x hx => hd x (List.mem_cons_of_mem _ hx))
      (by rw [hle2]; omega)
    unfold ParseUint.loop
    have h95 : (c.toNat == '_'.toNat) = false := by
      have : c.toNat ≠ 95 := by omega
      simpa using this
    have hdig : (decide ('0'.toNat ≤ c.toNat) && decide (c.toNat ≤ '9'.toNat)) = true := by
      simp only [Bool.and_eq_true, decide_eq_true_eq]
      exact hc2
    simp only [h95, Bool.false_and, Bool.false_eq_true, if_false, hdig, if_true]
    have hm1 : n * 10 % 2 ^ 64 = n * 10 := Nat.mod_eq_of_lt (by omega)
    have hm2 : (n * 10 + (c.toNat - '0'.toNat)) % 2 ^ 64 = n * 10 + (c.toNat - '0'.toNat) :=
      Nat.mod_eq_of_lt (by rw [hdv] at hn1; show n * 10 + (c.toNat - 48) < 2 ^ 64; omega)
    have hbase : ¬ (c.toNat - '0'.toNat ≥ 10) := by
      show ¬ (c.toNat - 48 ≥ 10); omega
    have hcut : ¬ (n ≥ maxUint64 / 10 + 1) := by
      have : maxUint64 / 10 + 1 = 1844674407370955162 := by decide
      rw [this]; omega
    rw [if_neg hbase, if_neg hcut, hm1, hm2]
    have hchk : (decide (n * 10 + (c.toNat - '0'.toNat) < n * 10)
        || decide (n * 10 + (c.toNat - '0'.toNat) > 4294967295)) = false := by
      simp only [Bool.or_eq_false_iff, decide_eq_false_iff_not]
      constructor
      · omega
      · show ¬ (n * 10 + (c.toNat - 48) > 4294967295); rw [hdv] at hn1; omega
    rw [hchk]
    simp only [Bool.false_eq_true, if_false]
    have ih2 : ParseUint.loop s0 10 true (maxUint64 / 10 + 1) 4294967295 rest
        (n * 10 + (c.toNat - '0'.toNat)) false
        = ((n * 10 + digitVal c) * 10 ^ rest.length + digitsValue rest, none) := ih1
    rw [ih2, digitsValue_cons, e1, hle2]
    simp only [Prod.mk.injEq, and_true]
    omega

theorem ParseInt_sign_eq (s : List Char) : ParseInt.sign s = splitSign s := by
  unfold ParseInt.sign splitSign
  split <;> rfl

theorem ParseInt_checkRange_of_fits (s0 : List Char) (neg : Bool) (un : Nat)
    (hpos : neg = false → un < 2147483648) (hneg : neg = true → un ≤ 2147483648) :
    ParseInt.checkRange s0 neg un 32 = (if neg then -(un : Int) else (un : Int), none) := by
  unfold ParseInt.checkRange
  simp only [show ((32 : Nat) == 0) = false from rfl, Bool.false_eq_true, if_false]
  have hc : 2 ^ (32 - 1) % 2 ^ 64 = 2147483648 := by norm_num
  rw [hc]
  cases neg with
  | false =>
    have h1 := hpos rfl
    have h2 : ¬ (un ≥ 2147483648) := by omega
    simp only [Bool.not_false, Bool.true_and, Bool.false_and, Bool.false_eq_true, if_false,
      decide_eq_true_eq, h2]
    rw [toInt64_of_small un (by omega)]
  | true =>
    have h1 := hneg rfl
    have h2 : ¬ (un > 2147483648) := by omega
    simp only [Bool.not_true, Bool.false_and, Bool.true_and, Bool.false_eq_true, if_false,
      decide_eq_true_eq, if_true, h2]
    rw [toInt64_of_small un (by omega), wrapInt64_of_range _ (by omega) (by omega)]

theorem ParseUint_canonical (ds : List Char) (hne : ds ≠ [])
    (hd : ∀ c ∈ ds, isDigit c = true)
    (hz : ds = ['0'] ∨ ds.head? ≠ some '0')
    (hv : digitsValue ds ≤ 4294967295) :
    ParseUint ds 0 32 = (digitsValue ds, none) := by
  unfold ParseUint
  rw [if_neg hne]
  have hmax : (2 ^ 32 % 2 ^ 64 + 2 ^ 64 - 1) % 2 ^ 64 = 4294967295 := by norm_num
  simp only [show ((0 : Nat) == 0) = true from rfl, Bool.true_or, Bool.not_true,
    Bool.false_eq_true, if_false, if_true, show ¬ (32 > 64) by decide,
    show ((32 : Nat) == 0) = false from rfl, hmax]
  rcases hz with hz | hz
  · subst hz
    decide
  · cases ds with
    | nil => exact absurd rfl hne
    | cons c rest =>
      have hc0 : (c == '0') = false := by
        simp only [List.head?_cons, ne_eq, Option.some.injEq] at hz
        simpa using hz
      have hp : ParseUint.prefixBase (c :: rest) = (10, c :: rest) := by
        unfold ParseUint.prefixBase
        simp only [hc0, Bool.false_eq_true, if_false]
      rw [hp]
      simp only
      have := ParseUint_loop_digits (c :: rest) (c :: rest) 0 hd (by omega)
      simpa using this

theorem DecimalInteger_iff (s : List Char) :
    DecimalInteger s = true ↔
      (splitSign s).2 ≠ [] ∧ ∀ c ∈ (splitSign s).2, isDigit c = true := by
  unfold DecimalInteger
  simp only [Bool.and_eq_true, Bool.not_eq_true', List.isEmpty_eq_false, List.all_eq_true,
    ne_eq]

theorem ParseInt_canonical (s : List Char) (hc : CanonicalDecimal s = true)
    (hf : fitsInt32 (decimalValue s)) :
    ParseInt s 0 32 = (decimalValue s, none) := by
  unfold CanonicalDecimal at hc
  simp only [Bool.and_eq_true, Bool.or_eq_true, beq_iff_eq, bne_iff_ne, ne_eq] at hc
  obtain ⟨hdec, hz⟩ := hc
  obtain ⟨hne, hd⟩ := (DecimalInteger_iff s).1 hdec
  have hs : s ≠ [] := by
    intro h
    subst h
    exact hne rfl
  unfold fitsInt32 decimalValue at hf
  have hv : digitsValue (splitSign s).2 ≤ 4294967295 := by
    split at hf <;> omega
  have hu := ParseUint_canonical (splitSign s).2 hne hd hz hv
  unfold ParseInt
  rw [if_neg hs]
  simp only [ParseInt_sign_eq, hu]
  rw [ParseInt_checkRange_of_fits]
  · unfold decimalValue
    rfl
  · intro hneg
    rw [hneg] at hf
    simp only [Bool.false_eq_true, if_false] at hf
    omega
  · intro hneg
    rw [hneg] at hf
    simp only [if_true] at hf
    omega

/-! ### Strings that `ParseInt` rejects -/

theorem dropWhile_append_of_all {α : Type} (p : α → Bool) (pre rest : List α)
    (h : ∀ c ∈ pre, p c = true) : (pre ++ rest).dropWhile p = rest.dropWhile p := by
  induction pre with
  | nil => rfl
  | cons a as ih =>
    have ha : p a = true := h a (List.mem_cons_self _ _)
    rw [List.cons_append, List.dropWhile_cons, if_pos ha]
    exact ih (fun c hc => h c (List.mem_cons_of_mem _ hc))

theorem dropWhile_of_head {α : Type} (p : α → Bool) (l : List α)
    (h : ∀ c, l.head? = some c → p c = false) : l.dropWhile p = l := by
  cases l with
  | nil => rfl
  | cons a as =>
    have ha : p a = false := h a rfl
    rw [List.dropWhile_cons, ha]
    simp

theorem TrimSpace_surround (pre core post : List Char)
    (hpre : ∀ c ∈ pre, IsSpace c = true) (hpost : ∀ c ∈ post, IsSpace c = true)
    (hh : ∀ c, core.head? = some c → IsSpace c = false)
    (hl : ∀ c, core.getLast? = some c → IsSpace c = false) :
    TrimSpace (pre ++ core ++ post) = core := by
  unfold TrimSpace
  cases core with
  | nil =>
    have hall : ∀ c ∈ pre ++ [] ++ post, IsSpace c = true := by
      intro c hc
      simp only [List.append_nil, List.mem_append] at hc
      rcases hc with hc | hc
      · exact hpre c hc
      · exact hpost c hc
    have h0 := dropWhile_append_of_all IsSpace (pre ++ [] ++ post) [] hall
    simp only [List.append_nil, List.dropWhile_nil] at h0
    simp only [List.append_nil, h0, List.reverse_nil, List.dropWhile_nil]
  | cons a as =>
    rw [List.append_assoc, dropWhile_append_of_all IsSpace pre _ hpre]
    have h1 : ((a :: as) ++ post).dropWhile IsSpace = (a :: as) ++ post := by
      apply dropWhile_of_head
      intro c hc
      exact hh c (by simpa using hc)
    rw [h1, List.reverse_append,
      dropWhile_append_of_all IsSpace post.reverse _
        (fun c hc => hpost c (List.mem_reverse.1 hc)),
      dropWhile_of_head IsSpace (a :: as).reverse
        (fun c hc => hl c (by rw [List.head?_reverse] at hc; exact hc)),
      List.reverse_reverse]

theorem isDigit_not_space (c : Char) (h : isDigit c = true) : IsSpace c = false := by
  rw [isDigit_iff] at h
  unfold IsSpace
  have h1 : c.toNat ≤ 255 := by omega
  simp only [h1, if_true, Bool.or_eq_false_iff, beq_eq_false_iff_ne, ne_eq]
  omega

theorem splitSign_cases (s : List Char) :
    (∃ r, s = '+' :: r ∧ splitSign s = (false, r)) ∨
    (∃ r, s = '-' :: r ∧ splitSign s = (true, r)) ∨
    splitSign s = (false, s) := by
  unfold splitSign
  split
  · exact Or.inl ⟨_, rfl, rfl⟩
  · exact Or.inr (Or.inl ⟨_, rfl, rfl⟩)
  · exact Or.inr (Or.inr rfl)

theorem DecimalInteger_head (s : List Char) (h : DecimalInteger s = true) :
    ∀ c, s.head? = some c → IsSpace c = false := by
  obtain ⟨hne, hd⟩ := (DecimalInteger_iff s).1 h
  intro c hc
  rcases splitSign_cases s with ⟨r, hs, _⟩ | ⟨r, hs, _⟩ | he
  · subst hs
    simp only [List.head?_cons, Option.some.injEq] at hc
    subst hc
    decide
  · subst hs
    simp only [List.head?_cons, Option.some.injEq] at hc
    subst hc
    decide
  · rw [he] at hd
    exact isDigit_not_space c (hd c (List.mem_of_mem_head? hc))

theorem DecimalInteger_last (s : List Char) (h : DecimalInteger s = true) :
    ∀ c, s.getLast? = some c → IsSpace c = false := by
  obtain ⟨hne, hd⟩ := (DecimalInteger_iff s).1 h
  intro c hc
  rcases splitSign_cases s with ⟨r, hs, he⟩ | ⟨r, hs, he⟩ | he
  · rw [he] at hd hne
    subst hs
    cases r with
    | nil => exact absurd rfl hne
    | cons b bs =>
      rw [List.getLast?_cons_cons] at hc
      exact isDigit_not_space c (hd c (List.mem_of_getLast?_eq_some hc))
  · rw [he] at hd hne
    subst hs
    cases r with
    | nil => exact absurd rfl hne
    | cons b bs =>
      rw [List.getLast?_cons_cons] at hc
      exact isDigit_not_space c (hd c (List.mem_of_getLast?_eq_some hc))
  · rw [he] at hd
    exact isDigit_not_space c (hd c (List.mem_of_getLast?_eq_some hc))

theorem CanonicalDecimal_decimal (s : List Char) (h : CanonicalDecimal s = true) :
    DecimalInteger s = true := by
  unfold CanonicalDecimal at h
  simp only [Bool.and_eq_true] at h
  exact h.1

theorem DecimalInteger_ne_nil (s : List Char) (h : DecimalInteger s = true) : s ≠ [] := by
  intro hs
  subst hs
  exact ((DecimalInteger_iff []).1 h).1 rfl

/-! ## `big.Int.SetString` in base 10 -/

theorem natScan_loop_ten (s : List Char) :
    ∀ z count : Nat, natScan.loop 10 s z count
      = (z * 10 ^ (s.takeWhile isDigit).length + digitsValue (s.takeWhile isDigit),
         count + (s.takeWhile isDigit).length, s.dropWhile isDigit) := by
  induction s with
  | nil =>
    intro z count
    simp [natScan.loop, digitsValue_nil]
  | cons c rest ih =>
    intro z count
    unfold natScan.loop
    by_cases hc : isDigit c = true
    · have hc2 := (isDigit_iff c).1 hc
      have hdig : (decide ('0'.toNat ≤ c.toNat) && decide (c.toNat ≤ '9'.toNat)) = true := by
        simp only [Bool.and_eq_true, decide_eq_true_eq]
        exact hc2
      have hlt : ¬ (c.toNat - '0'.toNat ≥ 10) := by
        show ¬ (c.toNat - 48 ≥ 10); omega
      simp only [hdig, if_true, if_neg hlt]
      rw [ih, List.takeWhile_cons, if_pos hc, List.dropWhile_cons, if_pos hc, digitsValue_cons,
        List.length_cons, pow_succ]
      have hdv : digitVal c = c.toNat - '0'.toNat := rfl
      rw [hdv]
      simp only [Prod.mk.injEq, and_true]
      constructor
      · ring
      · omega
    · have hc2 : ¬ (48 ≤ c.toNat ∧ c.toNat ≤ 57) := fun h => hc ((isDigit_iff c).2 h)
      have hdig : (decide ('0'.toNat ≤ c.toNat) && decide (c.toNat ≤ '9'.toNat)) = false := by
        rw [Bool.eq_false_iff]
        intro h
        simp only [Bool.and_eq_true, decide_eq_true_eq] at h
        exact hc2 h
      have hcf : isDigit c = false := by simpa using hc
      simp only [hdig, Bool.false_eq_true, if_false]
      rw [List.takeWhile_cons, hcf, List.dropWhile_cons, hcf]
      simp only [Bool.false_eq_true, if_false, List.length_nil, pow_zero, mul_one,
        digitsValue_nil, add_zero]
      have hge : (if (decide ('a'.toNat ≤ c.toNat) && decide (c.toNat ≤ 'z'.toNat)) = true then
            c.toNat - 'a'.toNat + 10
          else if (decide ('A'.toNat ≤ c.toNat) && decide (c.toNat ≤ 'Z'.toNat)) = true then
            (if 10 ≤ maxBaseSmall then c.toNat - 'A'.toNat + 10
             else c.toNat - 'A'.toNat + maxBaseSmall)
          else MaxBase + 1) ≥ 10 := by
        have h36 : (10 : Nat) ≤ maxBaseSmall := by decide
        have h62 : MaxBase + 1 = 63 := by decide
        rw [if_pos h36, h62]
        split
        · omega
        · split <;> omega
      rw [if_pos hge]

theorem scanSign_eq (s : List Char) (hs : s ≠ []) : scanSign s = some (splitSign s) := by
  unfold scanSign splitSign
  split
  · exact absurd rfl hs
  · rfl
  · rfl
  · rename_i h1 h2 h3
    split
    · exact absurd rfl (h2 _)
    · exact absurd rfl (h3 _)
    · rfl

theorem SetString_toInt (s : List Char) :
    (BigInt.SetString BigInt.new s 10).1.toInt = leadingDecimalValue s := by
  by_cases hs : s = []
  · subst hs
    decide
  · unfold BigInt.SetString BigInt.scan
    rw [scanSign_eq s hs]
    simp only [natScan_loop_ten, zero_mul, zero_add]
    unfold leadingDecimalValue
    by_cases hcount : ((splitSign s).2.takeWhile isDigit).length = 0
    · have hnil : (splitSign s).2.takeWhile isDigit = [] := List.length_eq_zero.1 hcount
      simp only [hnil, List.length_nil, beq_self_eq_true, if_true, digitsValue_nil]
      simp [BigInt.toInt, BigInt.new]
    · have hb : (((splitSign s).2.takeWhile isDigit).length == 0) = false := by
        simpa using hcount
      simp only [hb, Bool.false_eq_true, if_false]
      unfold BigInt.toInt
      cases hneg : (splitSign s).1 with
      | false => simp
      | true =>
        by_cases hz : digitsValue ((splitSign s).2.takeWhile isDigit) > 0
        · simp [hz]
        · have hz0 : digitsValue ((splitSign s).2.takeWhile isDigit) = 0 := by omega
          simp [hz0]

theorem leadingDecimalValue_of_decimal (s : List Char) (h : DecimalInteger s = true) :
    leadingDecimalValue s = decimalValue s := by
  obtain ⟨_, hd⟩ := (DecimalInteger_iff s).1 h
  have htw : (splitSign s).2.takeWhile isDigit = (splitSign s).2 :=
    List.takeWhile_eq_self_iff.2 hd
  unfold leadingDecimalValue decimalValue
  rw [htw]

theorem SetString_ok_iff (s : List Char) :
    (BigInt.SetString BigInt.new s 10).2 = true ↔ DecimalInteger s = true := by
  by_cases hs : s = []
  · subst hs
    decide
  · unfold BigInt.SetString BigInt.scan
    rw [scanSign_eq s hs, DecimalInteger_iff]
    simp only [natScan_loop_ten, zero_mul, zero_add]
    by_cases hcount : ((splitSign s).2.takeWhile isDigit).length = 0
    · have hnil : (splitSign s).2.takeWhile isDigit = [] := List.length_eq_zero.1 hcount
      simp only [hnil, List.length_nil, beq_self_eq_true, if_true, Bool.false_eq_true,
        false_iff, not_and]
      intro hne hall
      have htw : (splitSign s).2.takeWhile isDigit = (splitSign s).2 :=
        List.takeWhile_eq_self_iff.2 hall
      rw [hnil] at htw
      exact hne htw.symm
    · have hb : (((splitSign s).2.takeWhile isDigit).length == 0) = false := by
        simpa using hcount
      simp only [hb, Bool.false_eq_true, if_false, List.isEmpty_iff]
      rw [List.dropWhile_eq_nil_iff]
      constructor
      · intro hall
        refine ⟨?_, hall⟩
        intro hnil
        rw [hnil] at hcount
        exact hcount rfl
      · intro hh
        exact hh.2

/-! ## The loop over the store's records -/

theorem Handle_loop_count (now : Nat → Time) (recs : List CertificateRecord) :
    ∀ (acc : List RevokedCertificate) (k : Nat),
      (Handle.loop now recs acc k).2 = k + recs.length := by
  induction recs with
  | nil => intro acc k; rfl
  | cons c rest ih =>
    intro acc k
    unfold Handle.loop
    simp only [ih, List.length_cons]
    omega

theorem Handle_loop_serials (now : Nat → Time) (recs : List CertificateRecord) :
    ∀ (acc : List RevokedCertificate) (k : Nat),
      serialNumbers (Handle.loop now recs acc k).1
        = serialNumbers acc ++ recs.map (fun c => leadingDecimalValue c.Serial.data) := by
  induction recs with
  | nil => intro acc k; simp [Handle.loop]
  | cons c rest ih =>
    intro acc k
    unfold Handle.loop
    simp only [ih]
    simp [serialNumbers, SetString_toInt]

theorem Handle_loop_length (now : Nat → Time) (recs : List CertificateRecord) :
    ∀ (acc : List RevokedCertificate) (k : Nat),
      (Handle.loop now recs acc k).1.length = acc.length + recs.length := by
  induction recs with
  | nil => intro acc k; simp [Handle.loop]
  | cons c rest ih =>
    intro acc k
    unfold Handle.loop
    simp only [ih, List.length_append, List.length_cons, List.length_nil]
    omega

/-! ## The paths through `Handle` -/

theorem Handle_success (h : Handler) (rt : Runtime) (body : Bytes) (req : jsonCRLRequest)
    (recs : List CertificateRecord) (d : Int)
    (hread : rt.ReadAll = .ok body)
    (hdec : rt.Unmarshal body { ExpiryTime := "" } = (req, none))
    (hwin : (req.ExpiryTime = "" ∧ d = 604800) ∨
      (req.ExpiryTime ≠ "" ∧ ParseInt (TrimSpace req.ExpiryTime.data) 0 32 = (d, none)))
    (hstore : h.dbAccessor.GetExpiredCertificates = .ok recs) :
    Handle h rt =
      (rt.SendResponse (h.signer.CreateCRL (Handle.loop rt.Now recs [] 2).1
          (rt.Now (2 + recs.length)) { ns := (rt.Now 1).ns + d * 1000000000 }).1,
       [Event.ReadAll, Event.BodyClose, Event.GetExpiredCertificates,
        Event.CreateCRL (Handle.loop rt.Now recs [] 2).1
          (rt.Now (2 + recs.length)) { ns := (rt.Now 1).ns + d * 1000000000 },
        Event.SendResponse (h.signer.CreateCRL (Handle.loop rt.Now recs [] 2).1
          (rt.Now (2 + recs.length)) { ns := (rt.Now 1).ns + d * 1000000000 }).1]) := by
  unfold Handle
  simp only [hread, hdec, hstore]
  rcases hwin with ⟨he, hd⟩ | ⟨hne, hp⟩
  · subst hd
    simp only [he, ne_eq, not_true_eq_false, if_false, if_true, Handle_loop_count,
      oneWeek_eq, Time.Add]
    rfl
  · have hfit := ParseInt_range _ _ _ hp
    simp only [hne, ne_eq, not_false_eq_true, if_true, if_false, hp, Handle_loop_count,
      Duration_mul_Second d hfit, Time.Add]
    rfl

theorem Handle_read_error (h : Handler) (rt : Runtime) (e : Error)
    (hread : rt.ReadAll = .error e) : Handle h rt = (some e, [Event.ReadAll]) := by
  unfold Handle
  simp only [hread]

theorem Handle_parse_error (h : Handler) (rt : Runtime) (body : Bytes) (req : jsonCRLRequest)
    (err : Option Error) (v : Int) (e : Error)
    (hread : rt.ReadAll = .ok body)
    (hdec : rt.Unmarshal body { ExpiryTime := "" } = (req, err))
    (hne : req.ExpiryTime ≠ "")
    (hp : ParseInt (TrimSpace req.ExpiryTime.data) 0 32 = (v, some e)) :
    Handle h rt = (some e, [Event.ReadAll, Event.BodyClose] ++ Handle.logError err) := by
  unfold Handle
  simp only [hread, hdec, hne, ne_eq, not_false_eq_true, if_true, hp]

theorem Handle_decode_error (h : Handler) (rt : Runtime) (body : Bytes) (req : jsonCRLRequest)
    (e : Error) (d : Int)
    (hread : rt.ReadAll = .ok body)
    (hdec : rt.Unmarshal body { ExpiryTime := "" } = (req, some e))
    (hwin : (req.ExpiryTime = "" ∧ d = 604800) ∨
      (req.ExpiryTime ≠ "" ∧ ParseInt (TrimSpace req.ExpiryTime.data) 0 32 = (d, none))) :
    Handle h rt = (some e, [Event.ReadAll, Event.BodyClose, Event.LogError e]) := by
  unfold Handle
  simp only [hread, hdec]
  rcases hwin with ⟨he, _⟩ | ⟨hne, hp⟩
  · simp only [he, ne_eq, not_true_eq_false, if_false, if_true]
    rfl
  · simp only [hne, ne_eq, not_false_eq_true, if_true, if_false, hp]
    rfl

theorem Handle_store_error (h : Handler) (rt : Runtime) (body : Bytes) (req : jsonCRLRequest)
    (e : Error) (d : Int)
    (hread : rt.ReadAll = .ok body)
    (hdec : rt.Unmarshal body { ExpiryTime := "" } = (req, none))
    (hwin : (req.ExpiryTime = "" ∧ d = 604800) ∨
      (req.ExpiryTime ≠ "" ∧ ParseInt (TrimSpace req.ExpiryTime.data) 0 32 = (d, none)))
    (hstore : h.dbAccessor.GetExpiredCertificates = .error e) :
    Handle h rt = (some e, [Event.ReadAll, Event.BodyClose, Event.GetExpiredCertificates,
      Event.LogError e]) := by
  unfold Handle
  simp only [hread, hdec, hstore]
  rcases hwin with ⟨he, _⟩ | ⟨hne, hp⟩
  · simp only [he, ne_eq, not_true_eq_false, if_false, if_true]
    rfl
  · simp only [hne, ne_eq, not_false_eq_true, if_true, if_false, hp]
    rfl

/-- The window of a request is resolved: the duration is empty and the
default of 604800 seconds applies, or it is not empty and parses to `d`. -/
theorem window_cases (req : jsonCRLRequest) :
    (∃ d : Int, (req.ExpiryTime = "" ∧ d = 604800) ∨
      (req.ExpiryTime ≠ "" ∧ ParseInt (TrimSpace req.ExpiryTime.data) 0 32 = (d, none))) ∨
    (req.ExpiryTime ≠ "" ∧
      ∃ v e, ParseInt (TrimSpace req.ExpiryTime.data) 0 32 = (v, some e)) := by
  by_cases he : req.ExpiryTime = ""
  · exact Or.inl ⟨604800, Or.inl ⟨he, rfl⟩⟩
  · cases hp : ParseInt (TrimSpace req.ExpiryTime.data) 0 32 with
    | mk v perr =>
      cases perr with
      | none => exact Or.inl ⟨v, Or.inr ⟨he, rfl⟩⟩
      | some e => exact Or.inr ⟨he, v, e, rfl⟩

/-- Every path through `Handle`. -/
theorem Handle_paths (h : Handler) (rt : Runtime) :
    (∃ e, rt.ReadAll = .error e ∧ Handle h rt = (some e, [Event.ReadAll])) ∨
    (∃ body req err v e, rt.ReadAll = .ok body ∧
      rt.Unmarshal body { ExpiryTime := "" } = (req, err) ∧ req.ExpiryTime ≠ "" ∧
      ParseInt (TrimSpace req.ExpiryTime.data) 0 32 = (v, some e) ∧
      Handle h rt = (some e, [Event.ReadAll, Event.BodyClose] ++ Handle.logError err)) ∨
    (∃ body req e, rt.ReadAll = .ok body ∧
      rt.Unmarshal body { ExpiryTime := "" } = (req, some e) ∧
      Handle h rt = (some e, [Event.ReadAll, Event.BodyClose, Event.LogError e])) ∨
    (∃ body req e, rt.ReadAll = .ok body ∧
      rt.Unmarshal body { ExpiryTime := "" } = (req, none) ∧
      h.dbAccessor.GetExpiredCertificates = .error e ∧
      Handle h rt = (some e, [Event.ReadAll, Event.BodyClose, Event.GetExpiredCertificates,
        Event.LogError e])) ∨
    (∃ body req recs d, rt.ReadAll = .ok body ∧
      rt.Unmarshal body { ExpiryTime := "" } = (req, none) ∧
      ((req.ExpiryTime = "" ∧ d = 604800) ∨
        (req.ExpiryTime ≠ "" ∧ ParseInt (TrimSpace req.ExpiryTime.data) 0 32 = (d, none))) ∧
      h.dbAccessor.GetExpiredCertificates = .ok recs ∧
      Handle h rt =
        (rt.SendResponse (h.signer.CreateCRL (Handle.loop rt.Now recs [] 2).1
            (rt.Now (2 + recs.length)) { ns := (rt.Now 1).ns + d * 1000000000 }).1,
         [Event.ReadAll, Event.BodyClose, Event.GetExpiredCertificates,
          Event.CreateCRL (Handle.loop rt.Now recs [] 2).1
            (rt.Now (2 + recs.length)) { ns := (rt.Now 1).ns + d * 1000000000 },
          Event.SendResponse (h.signer.CreateCRL (Handle.loop rt.Now recs [] 2).1
            (rt.Now (2 + recs.length)) { ns := (rt.Now 1).ns + d * 1000000000 }).1])) := by
  cases hread : rt.ReadAll with
  | error e => exact Or.inl ⟨e, rfl, Handle_read_error h rt e hread⟩
  | ok body =>
    cases hdec : rt.Unmarshal body { ExpiryTime := "" } with
    | mk req err =>
      rcases window_cases req with ⟨d, hwin⟩ | ⟨hne, v, e, hp⟩
      · cases err with
        | some e =>
          exact Or.inr (Or.inr (Or.inl
            ⟨body, req, e, rfl, hdec, Handle_decode_error h rt body req e d hread hdec hwin⟩))
        | none =>
          cases hstore : h.dbAccessor.GetExpiredCertificates with
          | error e =>
            exact Or.inr (Or.inr (Or.inr (Or.inl
              ⟨body, req, e, rfl, hdec, rfl,
                Handle_store_error h rt body req e d hread hdec hwin hstore⟩)))
          | ok recs =>
            exact Or.inr (Or.inr (Or.inr (Or.inr
              ⟨body, req, recs, d, rfl, hdec, hwin, rfl,
                Handle_success h rt body req recs d hread hdec hwin hstore⟩)))
      · exact Or.inr (Or.inl
          ⟨body, req, err, v, e, rfl, hdec, hne, hp,
            Handle_parse_error h rt body req err v e hread hdec hne hp⟩)

/-! ## The validity window -/

/-- C1, at concrete requests: the window passed to `CreateCRL` is not always
the decimal value of `expireTime` in seconds.  With a clock
that stands still, the valid decimal string `010` (value 10) gives a window
of 8 seconds, because the parse is in base 0 and reads a leading `0` as the
octal prefix.  With a clock that advances, the string `3600` gives a window
that is short of 3600 seconds by the time elapsed between the reading
`nextUpdate` is computed from and the later reading passed as `thisUpdate`.
The valid decimal string `09` (value 9) is rejected as a malformed octal
number, and the signer is not called at all. -/
theorem C1_counterexample :
    (DecimalInteger "010".data = true ∧ decimalValue "010".data = 10 ∧ fitsInt32 10 ∧
      createCRLCalls (Handle (handlerWith [] okSigner) (runtimeWith (frozenClock 0) "010")).2
        = [([], { ns := 0 }, { ns := 8000000000 })] ∧
      (8000000000 : Int) - 0 ≠ 10 * 1000000000) ∧
    (DecimalInteger "3600".data = true ∧ decimalValue "3600".data = 3600 ∧ fitsInt32 3600 ∧
      createCRLCalls (Handle (handlerWith [] okSigner) (runtimeWith (tickingClock 0) "3600")).2
        = [([], { ns := 2000 }, { ns := 3600000001000 })] ∧
      (3600000001000 : Int) - 2000 ≠ 3600 * 1000000000) ∧
    (DecimalInteger "09".data = true ∧ decimalValue "09".data = 9 ∧ fitsInt32 9 ∧
      Handle (handlerWith [] okSigner) (runtimeWith (frozenClock 0) "09")
        = (some (Error.NumError "ParseInt" "09" NumErrKind.ErrSyntaxKind),
           [Event.ReadAll, Event.BodyClose])) := by
  decide

/-- C1, amended: when the body is read and decoded without error, the store
succeeds, and `expireTime` is a decimal integer `d` without a superfluous
leading zero that fits a signed 32-bit integer, optionally surrounded by white
space, `Handle` calls `CreateCRL` exactly once, with `nextUpdate` equal to the
second reading of the clock plus `d` seconds and `thisUpdate` equal to the
reading taken after the loop over the `N` records; so
`nextUpdate - thisUpdate` is `d` seconds less the time elapsed between these
two readings. -/
theorem C1_window_of_canonical_decimal (h : Handler) (rt : Runtime) (body : Bytes)
    (req : jsonCRLRequest) (recs : List CertificateRecord) (pre core post : List Char)
    (hread : rt.ReadAll = .ok body)
    (hdec : rt.Unmarshal body { ExpiryTime := "" } = (req, none))
    (hstore : h.dbAccessor.GetExpiredCertificates = .ok recs)
    (hs : req.ExpiryTime.data = pre ++ core ++ post)
    (hpre : ∀ c ∈ pre, IsSpace c = true) (hpost : ∀ c ∈ post, IsSpace c = true)
    (hcore : CanonicalDecimal core = true) (hfit : fitsInt32 (decimalValue core)) :
    createCRLCalls (Handle h rt).2
      = [((Handle.loop rt.Now recs [] 2).1, rt.Now (2 + recs.length),
          { ns := (rt.Now 1).ns + decimalValue core * 1000000000 })] ∧
    ((rt.Now 1).ns + decimalValue core * 1000000000) - (rt.Now (2 + recs.length)).ns
      = decimalValue core * 1000000000 - ((rt.Now (2 + recs.length)).ns - (rt.Now 1).ns) := by
  have hdecimal := CanonicalDecimal_decimal core hcore
  have htrim : TrimSpace req.ExpiryTime.data = core := by
    rw [hs]
    exact TrimSpace_surround pre core post hpre hpost (DecimalInteger_head core hdecimal)
      (DecimalInteger_last core hdecimal)
  have hne : req.ExpiryTime ≠ "" := by
    intro he
    rw [he] at hs
    have hcore_ne := DecimalInteger_ne_nil core hdecimal
    have : pre ++ core ++ post = [] := hs.symm
    simp only [List.append_eq_nil, List.append_eq_nil] at this
    exact hcore_ne this.1.2
  have hp : ParseInt (TrimSpace req.ExpiryTime.data) 0 32 = (decimalValue core, none) := by
    rw [htrim]
    exact ParseInt_canonical core hcore hfit
  rw [Handle_success h rt body req recs (decimalValue core) hread hdec (Or.inr ⟨hne, hp⟩) hstore]
  constructor
  · simp [createCRLCalls]
  · ring

/-- C1, amended, at the request `" 3600 "` with two stored records and a
clock that advances. -/
theorem C1_window_of_canonical_decimal_witness :
    createCRLCalls (Handle (handlerWith [{ Serial := "1001" }, { Serial := "7" }] okSigner)
        (runtimeWith (tickingClock 0) " 3600 ")).2
      = [((Handle.loop (tickingClock 0) [{ Serial := "1001" }, { Serial := "7" }] [] 2).1,
          tickingClock 0 (2 + 2),
          { ns := (tickingClock 0 1).ns + decimalValue "3600".data * 1000000000 })] ∧
    ((tickingClock 0 1).ns + decimalValue "3600".data * 1000000000)
        - (tickingClock 0 (2 + 2)).ns
      = decimalValue "3600".data * 1000000000
        - ((tickingClock 0 (2 + 2)).ns - (tickingClock 0 1).ns) :=
  C1_window_of_canonical_decimal (handlerWith [{ Serial := "1001" }, { Serial := "7" }] okSigner)
    (runtimeWith (tickingClock 0) " 3600 ") (jsonBody " 3600 ") { ExpiryTime := " 3600 " }
    [{ Serial := "1001" }, { Serial := "7" }] [' '] "3600".data [' ']
    rfl rfl rfl rfl (by decide) (by decide) (by decide) (by decide)

/-- C2, at a concrete request: with the body `\x7b\x7d` (empty duration) and a
clock that advances by a microsecond per reading, `nextUpdate - thisUpdate`
is 604800 seconds less one microsecond. -/
theorem C2_counterexample :
    createCRLCalls (Handle (handlerWith [] okSigner) (runtimeWith (tickingClock 0) "")).2
      = [([], { ns := 2000 }, { ns := 604800000001000 })] ∧
    (604800000001000 : Int) - 2000 ≠ 604800 * 1000000000 := by
  decide

/-- C2, amended: when the body is read and decoded without error into an
empty duration and the store succeeds, `Handle` calls `CreateCRL` exactly
once, with `nextUpdate` equal to the second reading of the clock plus 604800
seconds and `thisUpdate` equal to the reading taken after the loop over the
`N` records; so `nextUpdate - thisUpdate` is 604800 seconds less the time
elapsed between these two readings. -/
theorem C2_default_window (h : Handler) (rt : Runtime) (body : Bytes)
    (req : jsonCRLRequest) (recs : List CertificateRecord)
    (hread : rt.ReadAll = .ok body)
    (hdec : rt.Unmarshal body { ExpiryTime := "" } = (req, none))
    (hstore : h.dbAccessor.GetExpiredCertificates = .ok recs)
    (hempty : req.ExpiryTime = "") :
    createCRLCalls (Handle h rt).2
      = [((Handle.loop rt.Now recs [] 2).1, rt.Now (2 + recs.length),
          { ns := (rt.Now 1).ns + 604800 * 1000000000 })] ∧
    ((rt.Now 1).ns + 604800 * 1000000000) - (rt.Now (2 + recs.length)).ns
      = 604800 * 1000000000 - ((rt.Now (2 + recs.length)).ns - (rt.Now 1).ns) := by
  rw [Handle_success h rt body req recs 604800 hread hdec (Or.inl ⟨hempty, rfl⟩) hstore]
  constructor
  · simp [createCRLCalls]
  · ring

/-- C2, amended, at the body `\x7b\x7d` with an empty store. -/
theorem C2_default_window_witness :
    createCRLCalls (Handle (handlerWith [] okSigner) (runtimeWith (tickingClock 0) "")).2
      = [((Handle.loop (tickingClock 0) [] [] 2).1, tickingClock 0 (2 + 0),
          { ns := (tickingClock 0 1).ns + 604800 * 1000000000 })] ∧
    ((tickingClock 0 1).ns + 604800 * 1000000000) - (tickingClock 0 (2 + 0)).ns
      = 604800 * 1000000000 - ((tickingClock 0 (2 + 0)).ns - (tickingClock 0 1).ns) :=
  C2_default_window (handlerWith [] okSigner) (runtimeWith (tickingClock 0) "") (jsonBody "")
    { ExpiryTime := "" } [] rfl rfl rfl rfl

/-- C10: for every `n` in the signed 32-bit range, `n * 10^9` lies in the
signed 64-bit range, so `time.Duration(n) * time.Second` is `n * 10^9`
nanoseconds without wraparound and `Add` moves a time by exactly `n`
seconds; and every value that `ParseInt(s, 0, 32)` returns without an error
is in the signed 32-bit range. -/
theorem C10_duration_no_overflow (n : Int) (hn : -2 ^ 31 ≤ n ∧ n ≤ 2 ^ 31 - 1) (t : Time) :
    -2 ^ 63 ≤ n * 10 ^ 9 ∧ n * 10 ^ 9 ≤ 2 ^ 63 - 1 ∧
    Duration.mul n Second = n * 10 ^ 9 ∧
    (t.Add (Duration.mul n Second)).ns = t.ns + n * 10 ^ 9 ∧
    (∀ (s : List Char) (m : Int), ParseInt s 0 32 = (m, none) →
      -2 ^ 31 ≤ m ∧ m ≤ 2 ^ 31 - 1) := by
  have h1 : Duration.mul n Second = n * 1000000000 := Duration_mul_Second n hn
  unfold Time.Add
  rw [h1]
  refine ⟨?_, ?_, ?_, ?_, fun s m hp => ParseInt_range s 0 m hp⟩
  · omega
  · omega
  · norm_num
  · norm_num

/-- C10 at the largest accepted value, `n = 2^31 - 1`. -/
theorem C10_duration_no_overflow_witness :
    -2 ^ 63 ≤ (2147483647 : Int) * 10 ^ 9 ∧ (2147483647 : Int) * 10 ^ 9 ≤ 2 ^ 63 - 1 ∧
    Duration.mul 2147483647 Second = 2147483647 * 10 ^ 9 ∧
    ((Time.mk 0).Add (Duration.mul 2147483647 Second)).ns = 0 + 2147483647 * 10 ^ 9 ∧
    ParseInt "2147483647".data 0 32 = (2147483647, none) ∧
    (-2 ^ 31 ≤ (2147483647 : Int) ∧ (2147483647 : Int) ≤ 2 ^ 31 - 1) :=
  ⟨(C10_duration_no_overflow 2147483647 (by decide) { ns := 0 }).1,
   (C10_duration_no_overflow 2147483647 (by decide) { ns := 0 }).2.1,
   (C10_duration_no_overflow 2147483647 (by decide) { ns := 0 }).2.2.1,
   (C10_duration_no_overflow 2147483647 (by decide) { ns := 0 }).2.2.2.1,
   by decide,
   (C10_duration_no_overflow 2147483647 (by decide) { ns := 0 }).2.2.2.2
     "2147483647".data 2147483647 (by decide)⟩

/-! ## The revocation entries -/

/-- C3: when the request reaches the signer (body read and decoded without
error, window resolved, store succeeded with `N` records) and every record's
serial is a valid base-10 integer string, `Handle` calls `CreateCRL` exactly
once with a list of exactly `N` entries whose serial numbers are, in the
store's order, the decimal values of the records' serial strings, as
unbounded integers. -/
theorem C3_entries_match_serials (h : Handler) (rt : Runtime) (body : Bytes)
    (req : jsonCRLRequest) (recs : List CertificateRecord) (d : Int)
    (hread : rt.ReadAll = .ok body)
    (hdec : rt.Unmarshal body { ExpiryTime := "" } = (req, none))
    (hwin : (req.ExpiryTime = "" ∧ d = 604800) ∨
      (req.ExpiryTime ≠ "" ∧ ParseInt (TrimSpace req.ExpiryTime.data) 0 32 = (d, none)))
    (hstore : h.dbAccessor.GetExpiredCertificates = .ok recs)
    (hvalid : ∀ c ∈ recs, DecimalInteger c.Serial.data = true) :
    createCRLCalls (Handle h rt).2
      = [((Handle.loop rt.Now recs [] 2).1, rt.Now (2 + recs.length),
          { ns := (rt.Now 1).ns + d * 1000000000 })] ∧
    (Handle.loop rt.Now recs [] 2).1.length = recs.length ∧
    serialNumbers (Handle.loop rt.Now recs [] 2).1
      = recs.map (fun c => decimalValue c.Serial.data) := by
  rw [Handle_success h rt body req recs d hread hdec hwin hstore]
  refine ⟨by simp [createCRLCalls], ?_, ?_⟩
  · rw [Handle_loop_length]
    simp
  · rw [Handle_loop_serials]
    simp only [serialNumbers, List.map_nil, List.nil_append]
    apply List.map_congr_left
    intro c hc
    exact leadingDecimalValue_of_decimal c.Serial.data (hvalid c hc)

/-- C3 at the body `\x7b\x7d` and a store that returns the serials `1001` and
`99999999999999999999`, the second larger than 64 bits. -/
theorem C3_entries_match_serials_witness :
    createCRLCalls (Handle
        (handlerWith [{ Serial := "1001" }, { Serial := "99999999999999999999" }] okSigner)
        (runtimeWith (tickingClock 0) "")).2
      = [((Handle.loop (tickingClock 0)
            [{ Serial := "1001" }, { Serial := "99999999999999999999" }] [] 2).1,
          tickingClock 0 (2 + 2),
          { ns := (tickingClock 0 1).ns + 604800 * 1000000000 })] ∧
    (Handle.loop (tickingClock 0)
        [{ Serial := "1001" }, { Serial := "99999999999999999999" }] [] 2).1.length = 2 ∧
    serialNumbers (Handle.loop (tickingClock 0)
        [{ Serial := "1001" }, { Serial := "99999999999999999999" }] [] 2).1
      = [1001, 99999999999999999999] :=
  C3_entries_match_serials
    (handlerWith [{ Serial := "1001" }, { Serial := "99999999999999999999" }] okSigner)
    (runtimeWith (tickingClock 0) "") (jsonBody "") { ExpiryTime := "" }
    [{ Serial := "1001" }, { Serial := "99999999999999999999" }] 604800
    rfl rfl (Or.inl ⟨rfl, rfl⟩) rfl (by decide)

theorem leadingDecimalValue_of_no_digit (s : List Char)
    (hnd : ∀ c, (splitSign s).2.head? = some c → isDigit c = false) :
    leadingDecimalValue s = 0 := by
  have htw : (splitSign s).2.takeWhile isDigit = [] := by
    cases hr : (splitSign s).2 with
    | nil => rfl
    | cons c rest =>
      rw [hr] at hnd
      rw [List.takeWhile_cons, hnd c rfl]
      simp
  unfold leadingDecimalValue
  rw [htw, digitsValue_nil]
  simp

/-- C9, at a concrete store result: the serial `12abc` does not parse as a
base-10 integer (`SetString` reports failure), yet the entry built for it
carries the serial number 12, not 0: `SetString` has stored the digits it
read before the first invalid character into the receiver, and the handler
uses the receiver without looking at the success flag. -/
theorem C9_counterexample :
    DecimalInteger "12abc".data = false ∧
    (BigInt.SetString BigInt.new "12abc".data 10).2 = false ∧
    (createCRLCalls (Handle (handlerWith [{ Serial := "12abc" }] okSigner)
        (runtimeWith (frozenClock 0) "")).2).map (fun call => serialNumbers call.1)
      = [[12]] := by
  decide

/-- C9, amended: when the request reaches the signer, `Handle` passes to
`CreateCRL` exactly one entry per stored record, in the store's order, whether
or not the record's serial parses; the serial number of the entry is the value
of the longest run of decimal digits that starts the string after its optional
sign.  `SetString` reports success exactly on the valid base-10 integer
strings, and the entry of a serial that has no decimal digit right after its
optional sign (such as `abc` or the empty string) is 0. -/
theorem C9_entry_for_every_record (h : Handler) (rt : Runtime) (body : Bytes)
    (req : jsonCRLRequest) (recs : List CertificateRecord) (d : Int)
    (hread : rt.ReadAll = .ok body)
    (hdec : rt.Unmarshal body { ExpiryTime := "" } = (req, none))
    (hwin : (req.ExpiryTime = "" ∧ d = 604800) ∨
      (req.ExpiryTime ≠ "" ∧ ParseInt (TrimSpace req.ExpiryTime.data) 0 32 = (d, none)))
    (hstore : h.dbAccessor.GetExpiredCertificates = .ok recs) :
    createCRLCalls (Handle h rt).2
      = [((Handle.loop rt.Now recs [] 2).1, rt.Now (2 + recs.length),
          { ns := (rt.Now 1).ns + d * 1000000000 })] ∧
    (Handle.loop rt.Now recs [] 2).1.length = recs.length ∧
    serialNumbers (Handle.loop rt.Now recs [] 2).1
      = recs.map (fun c => leadingDecimalValue c.Serial.data) ∧
    (∀ c ∈ recs, ((BigInt.SetString BigInt.new c.Serial.data 10).2 = true
      ↔ DecimalInteger c.Serial.data = true)) ∧
    (∀ c ∈ recs, (∀ x, (splitSign c.Serial.data).2.head? = some x → isDigit x = false) →
      DecimalInteger c.Serial.data = false ∧ leadingDecimalValue c.Serial.data = 0) := by
  rw [Handle_success h rt body req recs d hread hdec hwin hstore]
  refine ⟨by simp [createCRLCalls], ?_, ?_, fun c _ => SetString_ok_iff c.Serial.data, ?_⟩
  · rw [Handle_loop_length]
    simp
  · rw [Handle_loop_serials]
    simp [serialNumbers]
  · intro c _ hnd
    refine ⟨?_, leadingDecimalValue_of_no_digit _ hnd⟩
    rw [Bool.eq_false_iff]
    intro hdec1
    obtain ⟨hne, hall⟩ := (DecimalInteger_iff c.Serial.data).1 hdec1
    cases hr : (splitSign c.Serial.data).2 with
    | nil => exact hne hr
    | cons x rest =>
      rw [hr] at hnd hall
      have h1 := hnd x rfl
      have h2 := hall x (List.mem_cons_self _ _)
      rw [h1] at h2
      exact Bool.false_ne_true h2

/-- C9, amended, at a store that returns the serials `abc`, `12abc` and the
empty string: three entries, with serial numbers 0, 12 and 0. -/
theorem C9_entry_for_every_record_witness :
    createCRLCalls (Handle
        (handlerWith [{ Serial := "abc" }, { Serial := "12abc" }, { Serial := "" }] okSigner)
        (runtimeWith (frozenClock 0) "")).2
      = [((Handle.loop (frozenClock 0)
            [{ Serial := "abc" }, { Serial := "12abc" }, { Serial := "" }] [] 2).1,
          frozenClock 0 (2 + 3),
          { ns := (frozenClock 0 1).ns + 604800 * 1000000000 })] ∧
    (Handle.loop (frozenClock 0)
        [{ Serial := "abc" }, { Serial := "12abc" }, { Serial := "" }] [] 2).1.length = 3 ∧
    serialNumbers (Handle.loop (frozenClock 0)
        [{ Serial := "abc" }, { Serial := "12abc" }, { Serial := "" }] [] 2).1
      = [0, 12, 0] :=
  ⟨(C9_entry_for_every_record
      (handlerWith [{ Serial := "abc" }, { Serial := "12abc" }, { Serial := "" }] okSigner)
      (runtimeWith (frozenClock 0) "") (jsonBody "") { ExpiryTime := "" }
      [{ Serial := "abc" }, { Serial := "12abc" }, { Serial := "" }] 604800
      rfl rfl (Or.inl ⟨rfl, rfl⟩) rfl).1,
   (C9_entry_for_every_record
      (handlerWith [{ Serial := "abc" }, { Serial := "12abc" }, { Serial := "" }] okSigner)
      (runtimeWith (frozenClock 0) "") (jsonBody "") { ExpiryTime := "" }
      [{ Serial := "abc" }, { Serial := "12abc" }, { Serial := "" }] 604800
      rfl rfl (Or.inl ⟨rfl, rfl⟩) rfl).2.1,
   (C9_entry_for_every_record
      (handlerWith [{ Serial := "abc" }, { Serial := "12abc" }, { Serial := "" }] okSigner)
      (runtimeWith (frozenClock 0) "") (jsonBody "") { ExpiryTime := "" }
      [{ Serial := "abc" }, { Serial := "12abc" }, { Serial := "" }] 604800
      rfl rfl (Or.inl ⟨rfl, rfl⟩) rfl).2.2.1⟩

/-! ## Failures -/

/-- C4, at a concrete request: the signer fails (`CreateCRL` returns no bytes
and an error), and `Handle` nevertheless passes the returned bytes to
`api.SendResponse`, which writes the success response, and returns the nil
error of `SendResponse`: the error of `CreateCRL` is assigned and never
looked at. -/
theorem C4_signer_error_ignored :
    (failingSigner.CreateCRL [] { ns := 0 } { ns := 604800000000000 }).2
      = some (Error.External "x509: signing failed") ∧
    Handle (handlerWith [] failingSigner) (runtimeWith (frozenClock 0) "")
      = (none,
         [Event.ReadAll, Event.BodyClose, Event.GetExpiredCertificates,
          Event.CreateCRL [] { ns := 0 } { ns := 604800000000000 },
          Event.SendResponse []]) := by
  decide

/-- C6: when `GetExpiredCertificates` returns the error `e`, the signer is not
called and no response is written, `Handle` returns an error, and on every
request on which the store is called that error is `e`. -/
theorem C6_store_error_stops (h : Handler) (rt : Runtime) (e : Error)
    (hstore : h.dbAccessor.GetExpiredCertificates = .error e) :
    createCRLCalls (Handle h rt).2 = [] ∧ sendResponseCalls (Handle h rt).2 = [] ∧
    (Handle h rt).1 ≠ none ∧
    (storeCalls (Handle h rt).2 ≠ 0 → (Handle h rt).1 = some e) := by
  rcases Handle_paths h rt with ⟨e1, _, hH⟩ | ⟨_, _, err, _, e1, _, _, _, _, hH⟩ |
    ⟨_, _, e1, _, _, hH⟩ | ⟨_, _, e1, _, _, hs, hH⟩ | ⟨_, _, recs, _, _, _, _, hs, _⟩
  · rw [hH]
    simp [storeCalls, createCRLCalls, sendResponseCalls]
  · rw [hH]
    cases err <;> simp [Handle.logError, storeCalls, createCRLCalls, sendResponseCalls]
  · rw [hH]
    simp [storeCalls, createCRLCalls, sendResponseCalls]
  · rw [hH]
    rw [hstore] at hs
    injection hs with hs
    subst hs
    simp [storeCalls, createCRLCalls, sendResponseCalls]
  · rw [hstore] at hs
    cases hs

/-- C6 at the body `\x7b\x7d` and a store that is down: the store is called
once and its error is returned. -/
theorem C6_store_error_stops_witness :
    storeCalls (Handle (handlerStoreDown okSigner) (runtimeWith (frozenClock 0) "")).2 = 1 ∧
    createCRLCalls (Handle (handlerStoreDown okSigner) (runtimeWith (frozenClock 0) "")).2
      = [] ∧
    sendResponseCalls (Handle (handlerStoreDown okSigner) (runtimeWith (frozenClock 0) "")).2
      = [] ∧
    (Handle (handlerStoreDown okSigner) (runtimeWith (frozenClock 0) "")).1
      = some (Error.External "sql: database is closed") :=
  ⟨by decide,
   (C6_store_error_stops (handlerStoreDown okSigner) (runtimeWith (frozenClock 0) "")
      (Error.External "sql: database is closed") rfl).1,
   (C6_store_error_stops (handlerStoreDown okSigner) (runtimeWith (frozenClock 0) "")
      (Error.External "sql: database is closed") rfl).2.1,
   (C6_store_error_stops (handlerStoreDown okSigner) (runtimeWith (frozenClock 0) "")
      (Error.External "sql: database is closed") rfl).2.2.2 (by decide)⟩

/-- C7, at a concrete request: the body `not json` fails JSON decoding; the
error is logged, and then `Handle` returns it (line 59 tests the error
variable that `json.Unmarshal` set): the store and the signer are not called
and no response is written. -/
theorem C7_counterexample :
    Handle (handlerWith [] okSigner) (runtimeBadJSON (frozenClock 0))
      = (some (Error.External "invalid character o in literal null"),
         [Event.ReadAll, Event.BodyClose,
          Event.LogError (Error.External "invalid character o in literal null")]) ∧
    storeCalls (Handle (handlerWith [] okSigner) (runtimeBadJSON (frozenClock 0))).2 = 0 ∧
    createCRLCalls (Handle (handlerWith [] okSigner) (runtimeBadJSON (frozenClock 0))).2
      = [] := by
  decide

/-- C7, amended: when the body is read and `json.Unmarshal` returns the error
`e`, the error is logged and `Handle` fails: the store is not called, the
signer is not called, no response is written; the error returned is `e`
whenever the window is resolved (the duration left in the request is empty,
or it parses), and otherwise the error of the duration parse. -/
theorem C7_decode_error_fails (h : Handler) (rt : Runtime) (body : Bytes)
    (req : jsonCRLRequest) (e : Error)
    (hread : rt.ReadAll = .ok body)
    (hdec : rt.Unmarshal body { ExpiryTime := "" } = (req, some e)) :
    Event.LogError e ∈ (Handle h rt).2 ∧ (Handle h rt).1 ≠ none ∧
    storeCalls (Handle h rt).2 = 0 ∧ createCRLCalls (Handle h rt).2 = [] ∧
    sendResponseCalls (Handle h rt).2 = [] ∧
    ((req.ExpiryTime = "" ∨ (ParseInt (TrimSpace req.ExpiryTime.data) 0 32).2 = none) →
      (Handle h rt).1 = some e) ∧
    (req.ExpiryTime ≠ "" → (ParseInt (TrimSpace req.ExpiryTime.data) 0 32).2 ≠ none →
      (Handle h rt).1 = (ParseInt (TrimSpace req.ExpiryTime.data) 0 32).2) := by
  rcases window_cases req with ⟨d, hwin⟩ | ⟨hne, v, e1, hp⟩
  · rw [Handle_decode_error h rt body req e d hread hdec hwin]
    refine ⟨by simp, by simp, by simp [storeCalls], by simp [createCRLCalls],
      by simp [sendResponseCalls], fun _ => rfl, ?_⟩
    intro hne hperr
    rcases hwin with ⟨he, _⟩ | ⟨_, hp⟩
    · exact absurd he hne
    · rw [hp] at hperr
      exact absurd rfl hperr
  · rw [Handle_parse_error h rt body req (some e) v e1 hread hdec hne hp]
    refine ⟨by simp [Handle.logError], by simp, by simp [storeCalls, Handle.logError],
      by simp [createCRLCalls, Handle.logError], by simp [sendResponseCalls, Handle.logError],
      ?_, ?_⟩
    · intro hor
      rcases hor with he | hn
      · exact absurd he hne
      · rw [hp] at hn
        cases hn
    · intro _ _
      rw [hp]

/-- C7, amended, at the body `not json`. -/
theorem C7_decode_error_fails_witness :
    Event.LogError (Error.External "invalid character o in literal null")
      ∈ (Handle (handlerWith [] okSigner) (runtimeBadJSON (frozenClock 0))).2 ∧
    (Handle (handlerWith [] okSigner) (runtimeBadJSON (frozenClock 0))).1
      = some (Error.External "invalid character o in literal null") :=
  ⟨(C7_decode_error_fails (handlerWith [] okSigner) (runtimeBadJSON (frozenClock 0))
      [0x6E, 0x6F, 0x74, 0x20, 0x6A, 0x73, 0x6F, 0x6E] { ExpiryTime := "" }
      (Error.External "invalid character o in literal null") rfl rfl).1,
   (C7_decode_error_fails (handlerWith [] okSigner) (runtimeBadJSON (frozenClock 0))
      [0x6E, 0x6F, 0x74, 0x20, 0x6A, 0x73, 0x6F, 0x6E] { ExpiryTime := "" }
      (Error.External "invalid character o in literal null") rfl rfl).2.2.2.2.2.1
      (Or.inl rfl)⟩

/-- C8, at concrete requests: with the duration `0` and a clock that stands
still, `CreateCRL` receives `nextUpdate` equal to `thisUpdate`; with the
duration `-5` it receives a `nextUpdate` five seconds before `thisUpdate`. -/
theorem C8_counterexample :
    createCRLCalls (Handle (handlerWith [] okSigner) (runtimeWith (frozenClock 0) "0")).2
      = [([], { ns := 0 }, { ns := 0 })] ∧
    createCRLCalls (Handle (handlerWith [] okSigner) (runtimeWith (frozenClock 0) "-5")).2
      = [([], { ns := 0 }, { ns := -5000000000 })] ∧
    ¬ ((0 : Int) < 0) ∧ ¬ ((0 : Int) < -5000000000) := by
  decide

/-- C8, amended: on every request on which `Handle` calls `CreateCRL`, the
`nextUpdate` passed is the second reading of the clock plus `d` seconds, where
`d` is 604800 for an empty duration and otherwise the parsed duration, any
signed 32-bit value; it is later than that reading exactly when `d` is
positive, and later than the `thisUpdate` passed exactly when `d` seconds
exceed the time elapsed between that reading and `thisUpdate`. -/
theorem C8_window_order (h : Handler) (rt : Runtime) (certs : List RevokedCertificate)
    (thisUpdate nextUpdate : Time)
    (hcall : (certs, thisUpdate, nextUpdate) ∈ createCRLCalls (Handle h rt).2) :
    ∃ body req d, rt.ReadAll = .ok body ∧
      rt.Unmarshal body { ExpiryTime := "" } = (req, none) ∧
      ((req.ExpiryTime = "" ∧ d = 604800) ∨
        (req.ExpiryTime ≠ "" ∧ ParseInt (TrimSpace req.ExpiryTime.data) 0 32 = (d, none))) ∧
      fitsInt32 d ∧
      nextUpdate.ns = (rt.Now 1).ns + d * 1000000000 ∧
      ((rt.Now 1).ns < nextUpdate.ns ↔ 0 < d) ∧
      (thisUpdate.ns < nextUpdate.ns ↔ thisUpdate.ns - (rt.Now 1).ns < d * 1000000000) := by
  rcases Handle_paths h rt with ⟨e1, _, hH⟩ | ⟨_, _, err, _, e1, _, _, _, _, hH⟩ |
    ⟨_, _, e1, _, _, hH⟩ | ⟨_, _, e1, _, _, _, hH⟩ | ⟨body, req, recs, d, hr, hd, hw, _, hH⟩
  · rw [hH] at hcall
    simp [createCRLCalls] at hcall
  · rw [hH] at hcall
    cases err <;> simp [Handle.logError, createCRLCalls] at hcall
  · rw [hH] at hcall
    simp [createCRLCalls] at hcall
  · rw [hH] at hcall
    simp [createCRLCalls] at hcall
  · rw [hH] at hcall
    simp only [createCRLCalls, List.mem_singleton, Prod.mk.injEq] at hcall
    obtain ⟨_, ht, hn⟩ := hcall
    have hfit : fitsInt32 d := by
      rcases hw with ⟨_, h604⟩ | ⟨_, hp⟩
      · rw [h604]
        decide
      · exact ParseInt_range _ _ _ hp
    refine ⟨body, req, d, hr, hd, hw, hfit, ?_, ?_, ?_⟩
    · rw [hn]
    · rw [hn]
      show (rt.Now 1).ns < (rt.Now 1).ns + d * 1000000000 ↔ 0 < d
      constructor <;> intro hlt <;> omega
    · rw [hn]
      show thisUpdate.ns < (rt.Now 1).ns + d * 1000000000 ↔ _
      constructor <;> intro hlt <;> omega

/-- C8, amended, at the duration `-5` with a clock that stands still. -/
theorem C8_window_order_witness :
    ∃ body req d, (runtimeWith (frozenClock 0) "-5").ReadAll = .ok body ∧
      (runtimeWith (frozenClock 0) "-5").Unmarshal body { ExpiryTime := "" } = (req, none) ∧
      ((req.ExpiryTime = "" ∧ d = 604800) ∨
        (req.ExpiryTime ≠ "" ∧ ParseInt (TrimSpace req.ExpiryTime.data) 0 32 = (d, none))) ∧
      fitsInt32 d ∧
      (Time.mk (-5000000000)).ns = ((runtimeWith (frozenClock 0) "-5").Now 1).ns
        + d * 1000000000 ∧
      (((runtimeWith (frozenClock 0) "-5").Now 1).ns < (Time.mk (-5000000000)).ns ↔ 0 < d) ∧
      ((Time.mk 0).ns < (Time.mk (-5000000000)).ns
        ↔ (Time.mk 0).ns - ((runtimeWith (frozenClock 0) "-5").Now 1).ns < d * 1000000000) :=
  C8_window_order (handlerWith [] okSigner) (runtimeWith (frozenClock 0) "-5") []
    { ns := 0 } { ns := -5000000000 } (by decide)

end CRL
